import Mathlib

/-!
Shallow embedding of the OHADEV service worker (src/sw.js, variant A, and
src/unnamed/part_000, variant B).

The worker's observable state is the browser's named cache storage: a list of
named stores in creation order (`caches.match` searches stores in that order).
Each store maps a request URL to a stored response snapshot.  The network is a
function from URL to `Option Response` (`none` = the fetch promise rejects).
Handlers are modelled as state transformers; the asynchronous code of the
source is sequentialized, which is faithful because each handler's cache
operations are data-dependent in exactly the order written.
-/

/-- A response snapshot: HTTP status and body (headers elided, they play no
role in any branch of the source). -/
structure Response where
  status : Nat
  body : String
deriving DecidableEq

/-- One named cache: entries keyed by request URL (all cached requests in the
source are GET, so URL is the whole key). -/
abbrev Store := List (String × Response)

/-- The cache storage: named stores in creation order. -/
abbrev CacheState := List (String × Store)

/-- The network: `none` models a rejected fetch. -/
abbrev Network := String → Option Response

/-- An intercepted fetch event's request: method, URL pathname, declared
destination (e.g. "style"), and mode (e.g. "navigate"). -/
structure Request where
  method : String
  path : String
  destination : String
  mode : String
deriving DecidableEq

/-- `cache.match(request)` inside one store: first entry whose key equals the
request URL. -/
def storeMatch : Store → String → Option Response
  | [], _ => none
  | e :: t, u => if e.1 == u then some e.2 else storeMatch t u

/-- `cache.put(request, response)`: overwrite the existing entry for the URL in
place, or append a new entry. -/
def storePut : Store → String → Response → Store
  | [], u, r => [(u, r)]
  | e :: t, u, r => if e.1 == u then (u, r) :: t else e :: storePut t u r

/-- Does a store of the given name exist (`caches.keys().includes(name)`)? -/
def cachesHas : CacheState → String → Bool
  | [], _ => false
  | e :: t, n => e.1 == n || cachesHas t n

/-- `caches.open(name)`: create the (empty) store if absent; an existing store
is left untouched. -/
def cachesOpen (cs : CacheState) (n : String) : CacheState :=
  if cachesHas cs n then cs else cs ++ [(n, [])]

/-- `caches.delete(name)`: remove the store of that name. -/
def cachesDelete (cs : CacheState) (n : String) : CacheState :=
  cs.filter (fun e => !(e.1 == n))

/-- `caches.keys()`: the store names in creation order. -/
def cachesKeys (cs : CacheState) : List String :=
  cs.map (fun e => e.1)

/-- `caches.match(request)`: search every store in creation order, return the
first match found in any of them. -/
def cachesMatch : CacheState → String → Option Response
  | [], _ => none
  | e :: t, u =>
    match storeMatch e.2 u with
    | some r => some r
    | none => cachesMatch t u

/-- Match inside the store of a given name only (`caches.open(n)` followed by
`cache.match(u)` when the store exists; `none` if the store is absent). -/
def cacheMatchIn : CacheState → String → String → Option Response
  | [], _, _ => none
  | e :: t, n, u => if e.1 == n then storeMatch e.2 u else cacheMatchIn t n u

/-- The contents of the named store (empty if absent). -/
def cacheGet : CacheState → String → Store
  | [], _ => []
  | e :: t, n => if e.1 == n then e.2 else cacheGet t n

/-- Replace the contents of the named store. -/
def cacheSetStore : CacheState → String → Store → CacheState
  | [], _, _ => []
  | e :: t, n, s => if e.1 == n then (e.1, s) :: t else e :: cacheSetStore t n s

/-- Put an entry into the store of the given name (no-op if the store is
absent; handlers always open the store first). -/
def cachePut : CacheState → String → String → Response → CacheState
  | [], _, _, _ => []
  | e :: t, n, u, r =>
    if e.1 == n then (e.1, storePut e.2 u r) :: t else e :: cachePut t n u r

/-- `const CACHE_VERSION = 'v2'` (src/sw.js line 1). -/
def CACHE_VERSION : String := "v2"

/-- Store name derivation: backtick template `oha-` followed by the version. -/
def cacheNameOf (version : String) : String := "oha-" ++ version

/-- `const CACHE_NAME = 'oha-' + CACHE_VERSION` (src/sw.js line 2). -/
def CACHE_NAME : String := cacheNameOf CACHE_VERSION

/-- `CORE_ASSETS` of src/sw.js (variant A). -/
def CORE_ASSETS : List String :=
  ["/", "/index.html", "/manifest.json", "/favicon.svg",
   "/assets/css/main.css", "/assets/media/freepik-luxury-800.webp"]

/-- `response.ok`: status in the 200..299 range (used by `cache.addAll`). -/
def respOk (r : Response) : Bool := 200 ≤ r.status && r.status < 300

/-- Fetch every URL of a list; `none` as soon as any fetch rejects or any
response is not ok (the semantics `cache.addAll` gives its request list). -/
def fetchAll (net : Network) : List String → Option (List (String × Response))
  | [] => some []
  | u :: rest =>
    match net u with
    | none => none
    | some r =>
      if respOk r then (fetchAll net rest).map (fun l => (u, r) :: l) else none

/-- `cache.addAll(urls)`: fetch all URLs and commit them as one batch; if any
fetch fails nothing is committed and the operation rejects (`none`). -/
def addAll (net : Network) (s : Store) (urls : List String) : Option Store :=
  (fetchAll net urls).map (fun l => l.foldl (fun acc e => storePut acc e.1 e.2) s)

/-- The install handler: `caches.open(name).then(cache => cache.addAll(assets))`.
Returns whether the install step succeeded, and the resulting cache storage
(on failure the store opened first still exists, but `addAll` committed
nothing). -/
def installEvent (net : Network) (name : String) (assets : List String)
    (cs : CacheState) : Bool × CacheState :=
  let cs1 := cachesOpen cs name
  match addAll net (cacheGet cs1 name) assets with
  | some s2 => (true, cacheSetStore cs1 name s2)
  | none => (false, cs1)

/-- The activate handler: `caches.keys()` then delete every key different from
the current store name. -/
def activateEvent (name : String) (cs : CacheState) : CacheState :=
  (cachesKeys cs).foldl
    (fun acc k => if k == name then acc else cachesDelete acc k) cs

/-- `String.endsWith`, computed on the character lists. -/
def strEndsWith (s tail : String) : Bool :=
  tail.data.isSuffixOf s.data

/-- `String.startsWith`, computed on the character lists. -/
def strStartsWith (s head : String) : Bool :=
  head.data.isPrefixOf s.data

/-- `url.pathname.endsWith('.css') || request.destination === 'style'`
(the cache-first routing test of variant A). -/
def isCss (req : Request) : Bool :=
  strEndsWith req.path ".css" || req.destination == "style"

/-- The image-extension regex test `\.(png|jpg|jpeg|webp|svg)$` of both
variants. -/
def hasImageExt (p : String) : Bool :=
  strEndsWith p ".png" || strEndsWith p ".jpg" || strEndsWith p ".jpeg" ||
  strEndsWith p ".webp" || strEndsWith p ".svg"

/-- `url.pathname.startsWith('/assets/media') || imageRegex.test(pathname)`
(the stale-while-revalidate routing test of both variants). -/
def isMedia (req : Request) : Bool :=
  strStartsWith req.path "/assets/media" || hasImageExt req.path

/-- Cache-first (variant A, CSS branch): `caches.match`; on a hit return the
cached response untouched; on a miss fetch, and when the fetch resolves open
the active store, put a clone, and return the network response; a rejected
fetch propagates with no cache write. -/
def cacheFirst (net : Network) (cs : CacheState) (u : String) :
    Option Response × CacheState :=
  match cachesMatch cs u with
  | some r => (some r, cs)
  | none =>
    match net u with
    | some nr => (some nr, cachePut (cachesOpen cs CACHE_NAME) CACHE_NAME u nr)
    | none => (none, cs)

/-- `staleWhileRevalidate` of both variants: open the active store, match the
request in it; start the fetch, and when it resolves with status 200 put a
clone in the active store, a rejected fetch becoming `null`; return the cached
value if any, else whatever the network produced. -/
def staleWhileRevalidate (net : Network) (cs : CacheState) (u : String) :
    Option Response × CacheState :=
  let cs1 := cachesOpen cs CACHE_NAME
  let cached := cacheMatchIn cs1 CACHE_NAME u
  let netResult := net u
  let cs2 :=
    match netResult with
    | some r => if r.status == 200 then cachePut cs1 CACHE_NAME u r else cs1
    | none => cs1
  match cached with
  | some r => (some r, cs2)
  | none => (netResult, cs2)

/-- Default branch of both variants:
`caches.match(request).then(resp => resp || fetch(request))`. -/
def defaultStrategy (net : Network) (cs : CacheState) (u : String) :
    Option Response × CacheState :=
  match cachesMatch cs u with
  | some r => (some r, cs)
  | none => (net u, cs)

/-- Navigation branch of variant B:
`caches.match('/index.html').then(resp => resp || fetch('/index.html'))`. -/
def navigationStrategy (net : Network) (cs : CacheState) :
    Option Response × CacheState :=
  match cachesMatch cs "/index.html" with
  | some r => (some r, cs)
  | none => (net "/index.html", cs)

/-- The fetch handler of variant A (src/sw.js): non-GET requests are not
intercepted (`none` in the first component); CSS goes cache-first, media goes
stale-while-revalidate, everything else to the default strategy. -/
def handleFetchA (net : Network) (cs : CacheState) (req : Request) :
    Option (Option Response) × CacheState :=
  if req.method != "GET" then (none, cs)
  else if isCss req then
    let p := cacheFirst net cs req.path
    (some p.1, p.2)
  else if isMedia req then
    let p := staleWhileRevalidate net cs req.path
    (some p.1, p.2)
  else
    let p := defaultStrategy net cs req.path
    (some p.1, p.2)

/-- The fetch handler of variant B (src/unnamed/part_000): non-GET requests
are not intercepted; page navigations are served the cached app shell; media
goes stale-while-revalidate, everything else to the default strategy. -/
def handleFetchB (net : Network) (cs : CacheState) (req : Request) :
    Option (Option Response) × CacheState :=
  if req.method != "GET" then (none, cs)
  else if req.mode == "navigate" then
    let p := navigationStrategy net cs
    (some p.1, p.2)
  else if isMedia req then
    let p := staleWhileRevalidate net cs req.path
    (some p.1, p.2)
  else
    let p := defaultStrategy net cs req.path
    (some p.1, p.2)

/-- A network where every fetch rejects. -/
def netDown : Network := fun _ => none

/-! ### Basic lemmas about the cache-storage operations -/

lemma storeMatch_storePut_self (s : Store) (u : String) (r : Response) :
    storeMatch (storePut s u r) u = some r := by
  induction s with
  | nil => simp [storePut, storeMatch]
  | cons e t ih =>
    by_cases h : e.1 == u
    · simp [storePut, h, storeMatch]
    · simp [storePut, h, storeMatch, ih]

lemma cachesHas_of_matchIn {cs : CacheState} {n u : String} {r : Response}
    (h : cacheMatchIn cs n u = some r) : cachesHas cs n = true := by
  induction cs with
  | nil => simp [cacheMatchIn] at h
  | cons e t ih =>
    by_cases he : e.1 == n
    · simp [cachesHas, he]
    · simp only [cacheMatchIn] at h
      rw [if_neg he] at h
      simp [cachesHas, he, ih h]

lemma cachesHas_append (a b : CacheState) (n : String) :
    cachesHas (a ++ b) n = (cachesHas a n || cachesHas b n) := by
  induction a with
  | nil => simp [cachesHas]
  | cons e t ih => simp [cachesHas, ih, Bool.or_assoc]

lemma cachesHas_open (cs : CacheState) (n : String) :
    cachesHas (cachesOpen cs n) n = true := by
  by_cases h : cachesHas cs n
  · simp [cachesOpen, h]
  · simp [cachesOpen, h, cachesHas_append, cachesHas]

lemma cacheMatchIn_of_not_has {cs : CacheState} {n : String}
    (h : cachesHas cs n = false) (u : String) : cacheMatchIn cs n u = none := by
  induction cs with
  | nil => simp [cacheMatchIn]
  | cons e t ih =>
    simp only [cachesHas, Bool.or_eq_false_iff] at h
    simp [cacheMatchIn, h.1, ih h.2]

lemma cacheMatchIn_append (a b : CacheState) (n u : String) :
    cacheMatchIn (a ++ b) n u
      = if cachesHas a n then cacheMatchIn a n u else cacheMatchIn b n u := by
  induction a with
  | nil => simp [cacheMatchIn, cachesHas]
  | cons e t ih =>
    by_cases he : e.1 == n
    · simp [cacheMatchIn, cachesHas, he]
    · simp [cacheMatchIn, cachesHas, he, ih]

lemma cacheMatchIn_open (cs : CacheState) (n u : String) :
    cacheMatchIn (cachesOpen cs n) n u = cacheMatchIn cs n u := by
  by_cases h : cachesHas cs n
  · simp [cachesOpen, h]
  · have h' : cachesHas cs n = false := by simpa using h
    rw [cacheMatchIn_of_not_has h']
    simp [cachesOpen, h', cacheMatchIn_append, cacheMatchIn, storeMatch]

lemma cacheMatchIn_put_self {cs : CacheState} {n : String} (u : String)
    (r : Response) (h : cachesHas cs n = true) :
    cacheMatchIn (cachePut cs n u r) n u = some r := by
  induction cs with
  | nil => simp [cachesHas] at h
  | cons e t ih =>
    by_cases he : e.1 == n
    · simp [cachePut, he, cacheMatchIn, storeMatch_storePut_self]
    · simp only [cachesHas, Bool.or_eq_true] at h
      rcases h with h | h
      · exact absurd h (by simpa using he)
      · simp [cachePut, he, cacheMatchIn, ih h]

lemma cachesMatch_append_none {a : CacheState} {u : String}
    (h : cachesMatch a u = none) (b : CacheState)
    (hb : cachesMatch b u = none) : cachesMatch (a ++ b) u = none := by
  induction a with
  | nil => simpa using hb
  | cons e t ih =>
    cases hs : storeMatch e.2 u with
    | some r => simp [cachesMatch, hs] at h
    | none =>
      simp only [cachesMatch, hs] at h ⊢
      exact ih h

lemma cachesMatch_open_none {cs : CacheState} {u : String}
    (h : cachesMatch cs u = none) (n : String) :
    cachesMatch (cachesOpen cs n) u = none := by
  by_cases hh : cachesHas cs n
  · simpa [cachesOpen, hh] using h
  · simp only [cachesOpen, hh, if_neg, Bool.false_eq_true, not_false_iff]
    exact cachesMatch_append_none h _ (by simp [cachesMatch, storeMatch])

lemma cachesMatch_put_self {cs : CacheState} {u n : String}
    (h : cachesMatch cs u = none) (hh : cachesHas cs n = true)
    (r : Response) : cachesMatch (cachePut cs n u r) u = some r := by
  induction cs with
  | nil => simp [cachesHas] at hh
  | cons e t ih =>
    cases hs : storeMatch e.2 u with
    | some r2 => simp [cachesMatch, hs] at h
    | none =>
      simp only [cachesMatch, hs] at h
      by_cases he : e.1 == n
      · simp [cachePut, he, cachesMatch, storeMatch_storePut_self]
      · simp only [cachesHas, Bool.or_eq_true] at hh
        rcases hh with hh | hh
        · exact absurd hh (by simpa using he)
        · simp [cachePut, he, cachesMatch, hs, ih h hh]

lemma cachesMatch_singleton (s : Store) (n u : String) :
    cachesMatch [(n, s)] u = storeMatch s u := by
  cases hs : storeMatch s u <;> simp [cachesMatch, hs]

/-! ### Frame lemmas: cache writes never touch a store of another name -/

lemma filter_cachesOpen (cs : CacheState) (n : String) :
    (cachesOpen cs n).filter (fun e => !(e.1 == n))
      = cs.filter (fun e => !(e.1 == n)) := by
  by_cases h : cachesHas cs n
  · simp [cachesOpen, h]
  · simp [cachesOpen, h, List.filter_append]

lemma filter_cachePut (cs : CacheState) (n u : String) (r : Response) :
    (cachePut cs n u r).filter (fun e => !(e.1 == n))
      = cs.filter (fun e => !(e.1 == n)) := by
  induction cs with
  | nil => rfl
  | cons e t ih =>
    by_cases he : e.1 == n
    · simp [cachePut, he, List.filter_cons]
    · simp [cachePut, he, List.filter_cons, ih]

lemma filter_cacheFirst (net : Network) (cs : CacheState) (u : String) :
    (cacheFirst net cs u).2.filter (fun e => !(e.1 == CACHE_NAME))
      = cs.filter (fun e => !(e.1 == CACHE_NAME)) := by
  cases h1 : cachesMatch cs u with
  | some r => simp [cacheFirst, h1]
  | none =>
    cases h2 : net u with
    | some nr => simp [cacheFirst, h1, h2, filter_cachePut, filter_cachesOpen]
    | none => simp [cacheFirst, h1, h2]

lemma filter_staleWhileRevalidate (net : Network) (cs : CacheState)
    (u : String) :
    (staleWhileRevalidate net cs u).2.filter (fun e => !(e.1 == CACHE_NAME))
      = cs.filter (fun e => !(e.1 == CACHE_NAME)) := by
  cases h2 : net u with
  | some nr =>
    by_cases hs : nr.status == 200
    · cases hM : cacheMatchIn (cachesOpen cs CACHE_NAME) CACHE_NAME u <;>
        simp [staleWhileRevalidate, h2, hM, hs, filter_cachePut,
          filter_cachesOpen]
    · cases hM : cacheMatchIn (cachesOpen cs CACHE_NAME) CACHE_NAME u <;>
        simp [staleWhileRevalidate, h2, hM, hs, filter_cachesOpen]
  | none =>
    cases hM : cacheMatchIn (cachesOpen cs CACHE_NAME) CACHE_NAME u <;>
      simp [staleWhileRevalidate, h2, hM, filter_cachesOpen]

lemma snd_defaultStrategy (net : Network) (cs : CacheState) (u : String) :
    (defaultStrategy net cs u).2 = cs := by
  cases h : cachesMatch cs u <;> simp [defaultStrategy, h]

lemma snd_navigationStrategy (net : Network) (cs : CacheState) :
    (navigationStrategy net cs).2 = cs := by
  cases h : cachesMatch cs "/index.html" <;> simp [navigationStrategy, h]

/-! ### The activate handler deletes exactly the stores of another name -/

lemma foldl_delete_eq (n : String) (ks : List String) :
    ∀ acc : CacheState,
      ks.foldl (fun a k => if k == n then a else cachesDelete a k) acc
        = acc.filter (fun e => e.1 == n || !(ks.contains e.1)) := by
  induction ks with
  | nil => intro acc; simp
  | cons k t ih =>
    intro acc
    by_cases hk : k == n
    · have hkn : k = n := by simpa using hk
      subst hkn
      rw [List.foldl_cons, if_pos hk, ih]
      refine List.filter_congr fun e _ => ?_
      by_cases hx : e.1 = k <;> by_cases hc : e.1 ∈ t <;>
        simp [hx, hc, List.contains_cons]
    · rw [List.foldl_cons, if_neg hk, ih, cachesDelete, List.filter_filter]
      refine List.filter_congr fun e _ => ?_
      by_cases h1 : e.1 = n
      · by_cases h2 : e.1 = k
        · exact absurd (by simp [← h2, h1]) hk
        · by_cases hc : e.1 ∈ t <;>
            · simp [h1, h2, hc, List.contains_cons]
              intro hnk
              exact hk (by simp [hnk])
      · by_cases h2 : e.1 = k
        · by_cases hc : e.1 ∈ t <;>
            · simp [h1, h2, hc, List.contains_cons]
              intro hnk
              exact hk (by simp [hnk])
        · by_cases hc : e.1 ∈ t <;> simp [h1, h2, hc, List.contains_cons]

lemma filter_name_eq_singleton {cs : CacheState} {n : String} {s : Store}
    (hnd : (cachesKeys cs).Nodup) (hm : (n, s) ∈ cs) :
    cs.filter (fun e => e.1 == n) = [(n, s)] := by
  induction cs with
  | nil => cases hm
  | cons e t ih =>
    rw [show cachesKeys (e :: t) = e.1 :: cachesKeys t from rfl,
      List.nodup_cons] at hnd
    obtain ⟨hnot, hndt⟩ := hnd
    rcases List.mem_cons.mp hm with he | ht
    · cases he
      have hnil : t.filter (fun e2 => e2.1 == n) = [] := by
        rw [List.filter_eq_nil_iff]
        intro a ha
        simp only [beq_iff_eq]
        intro h
        exact hnot (h ▸ List.mem_map_of_mem (fun x => x.1) ha)
      simp [List.filter_cons, hnil]
    · have hne : ¬(e.1 = n) :=
        fun h => hnot (h ▸ List.mem_map_of_mem (fun x => x.1) ht)
      simp [List.filter_cons, hne, ih hndt ht]

lemma cachesHas_filter_eq (cs : CacheState) (n m : String) :
    cachesHas (cs.filter (fun e => e.1 == n)) m
      = ((m == n) && cachesHas cs n) := by
  induction cs with
  | nil => simp [cachesHas]
  | cons e t ih =>
    by_cases he : e.1 = n
    · by_cases hm : m = n
      · subst hm
        simp [List.filter_cons, he, cachesHas]
      · have h2 : (m == n) = false := by simp [hm]
        have h3 : (n == m) = false := by simp [Ne.symm hm]
        simp [List.filter_cons, he, cachesHas, ih, h2, h3]
    · have hbe : (e.1 == n) = false := by simp [he]
      simp [List.filter_cons, hbe, cachesHas, ih]

lemma activateEvent_eq_filter (n : String) (cs : CacheState) :
    activateEvent n cs = cs.filter (fun e => e.1 == n) := by
  rw [activateEvent, foldl_delete_eq]
  refine List.filter_congr fun e he => ?_
  have hmem : e.1 ∈ cachesKeys cs :=
    List.mem_map_of_mem (fun x => x.1) he
  by_cases h1 : e.1 = n <;> simp [h1, hmem]

/-! ### Install lemmas -/

lemma fetchAll_eq_none {net : Network} {u : String} (hu : net u = none) :
    ∀ {urls : List String}, u ∈ urls → fetchAll net urls = none := by
  intro urls hm
  induction urls with
  | nil => cases hm
  | cons v t ih =>
    rcases List.mem_cons.mp hm with hv | ht
    · subst hv
      simp [fetchAll, hu]
    · cases hv2 : net v with
      | none => simp [fetchAll, hv2]
      | some r =>
        by_cases hok : respOk r
        · simp [fetchAll, hv2, hok, ih ht]
        · simp [fetchAll, hv2, hok]

lemma cachesHas_cacheSetStore (cs : CacheState) (n : String) (s : Store)
    (m : String) : cachesHas (cacheSetStore cs n s) m = cachesHas cs m := by
  induction cs with
  | nil => rfl
  | cons e t ih =>
    by_cases he : e.1 == n
    · simp [cacheSetStore, he, cachesHas]
    · simp [cacheSetStore, he, cachesHas, ih]

lemma cachesHas_installEvent (net : Network) (name : String)
    (assets : List String) (cs : CacheState) :
    cachesHas (installEvent net name assets cs).2 name = true := by
  cases h : addAll net (cacheGet (cachesOpen cs name) name) assets with
  | none =>
    simp only [installEvent]
    rw [h]
    simpa using cachesHas_open cs name
  | some s2 =>
    simp only [installEvent]
    rw [h]
    simpa [cachesHas_cacheSetStore] using cachesHas_open cs name

/-! ### The claims -/

/-- C4: for every request whose method is not GET, neither variant's fetch
handler intercepts it: no response is produced (`respondWith` is never
reached) and the cache storage is returned exactly as it was, for every
state and every network, so the handling of such a request neither reads
nor writes the Cache Store. -/
theorem nonGet_passthrough (net : Network) (cs : CacheState) (req : Request)
    (h : req.method ≠ "GET") :
    handleFetchA net cs req = (none, cs)
    ∧ handleFetchB net cs req = (none, cs) := by
  exact ⟨by simp [handleFetchA, h], by simp [handleFetchB, h]⟩

/-- Witness for C4 at a concrete POST request. -/
theorem nonGet_passthrough_witness :
    handleFetchA netDown [(CACHE_NAME, [("/x", ⟨200, "x"⟩)])]
        ⟨"POST", "/x", "", ""⟩
      = (none, [(CACHE_NAME, [("/x", ⟨200, "x"⟩)])])
    ∧ handleFetchB netDown [(CACHE_NAME, [("/x", ⟨200, "x"⟩)])]
        ⟨"POST", "/x", "", ""⟩
      = (none, [(CACHE_NAME, [("/x", ⟨200, "x"⟩)])]) :=
  nonGet_passthrough netDown [(CACHE_NAME, [("/x", ⟨200, "x"⟩)])]
    ⟨"POST", "/x", "", ""⟩ (by decide)

/-- C1: variant A's cache-first CSS branch, in the post-activation state
where the active store is the only store: a GET request routed to
cache-first that has an entry in the active store is answered with that
entry, with no cache write and the same answer under every network (no
network attempt); when no entry exists, the network is fetched and, when
the fetch resolves, its response is both written into the active store
keyed by the request URL and returned to the caller. -/
theorem cacheFirst_css_behavior (net : Network) (s : Store) (req : Request)
    (hm : req.method = "GET") (hc : isCss req = true) :
    (∀ r, storeMatch s req.path = some r →
      handleFetchA net [(CACHE_NAME, s)] req
        = (some (some r), [(CACHE_NAME, s)]))
    ∧ (storeMatch s req.path = none → ∀ nr, net req.path = some nr →
      handleFetchA net [(CACHE_NAME, s)] req
        = (some (some nr), [(CACHE_NAME, storePut s req.path nr)])) := by
  constructor
  · intro r hr
    simp [handleFetchA, hm, hc, cacheFirst, cachesMatch_singleton, hr]
  · intro hn nr hnr
    have hso : cachesOpen [(CACHE_NAME, s)] CACHE_NAME = [(CACHE_NAME, s)] := by
      simp [cachesOpen, cachesHas]
    simp [handleFetchA, hm, hc, cacheFirst, cachesMatch_singleton, hn, hnr,
      hso, cachePut]

/-- Witness for C1: the spec's scenario — `GET /assets/css/main.css` with no
entry, a network answering 200, then the identical request with the network
down served from the store. -/
theorem cacheFirst_css_behavior_witness :
    handleFetchA (fun _ => some ⟨200, "cssbody"⟩) [(CACHE_NAME, [])]
        ⟨"GET", "/assets/css/main.css", "style", ""⟩
      = (some (some ⟨200, "cssbody"⟩),
         [(CACHE_NAME, [("/assets/css/main.css", ⟨200, "cssbody"⟩)])])
    ∧ handleFetchA netDown
        [(CACHE_NAME, [("/assets/css/main.css", ⟨200, "cssbody"⟩)])]
        ⟨"GET", "/assets/css/main.css", "style", ""⟩
      = (some (some ⟨200, "cssbody"⟩),
         [(CACHE_NAME, [("/assets/css/main.css", ⟨200, "cssbody"⟩)])]) :=
  ⟨(cacheFirst_css_behavior (fun _ => some ⟨200, "cssbody"⟩) []
      ⟨"GET", "/assets/css/main.css", "style", ""⟩ rfl (by decide)).2
      rfl ⟨200, "cssbody"⟩ rfl,
   (cacheFirst_css_behavior netDown
      [("/assets/css/main.css", ⟨200, "cssbody"⟩)]
      ⟨"GET", "/assets/css/main.css", "style", ""⟩ rfl (by decide)).1
      ⟨200, "cssbody"⟩ (by decide)⟩

/-- C10: in variant A's cache-first branch, a cache miss followed by a
resolved network response of any status — including an error status such as
404 — is written into the active store, and every subsequent cache-first
request for the same URL, under any network whatsoever, is served that
stored response. -/
theorem cacheFirst_writes_any_status (net : Network) (cs : CacheState)
    (req : Request) (r : Response) (hm : req.method = "GET")
    (hc : isCss req = true) (hmiss : cachesMatch cs req.path = none)
    (hnet : net req.path = some r) :
    (handleFetchA net cs req).1 = some (some r)
    ∧ cachesMatch (handleFetchA net cs req).2 req.path = some r
    ∧ ∀ net2, handleFetchA net2 (handleFetchA net cs req).2 req
        = (some (some r), (handleFetchA net cs req).2) := by
  have hpost : handleFetchA net cs req
      = (some (some r),
         cachePut (cachesOpen cs CACHE_NAME) CACHE_NAME req.path r) := by
    simp [handleFetchA, hm, hc, cacheFirst, hmiss, hnet]
  have hmm : cachesMatch
      (cachePut (cachesOpen cs CACHE_NAME) CACHE_NAME req.path r) req.path
        = some r :=
    cachesMatch_put_self (cachesMatch_open_none hmiss CACHE_NAME)
      (cachesHas_open cs CACHE_NAME) r
  refine ⟨by rw [hpost], by rw [hpost]; exact hmm, fun net2 => ?_⟩
  rw [hpost]
  simp [handleFetchA, hm, hc, cacheFirst, hmm]

/-- Witness for C10: a 404 network response on a missed `.css` URL is stored
and then served with the network down. -/
theorem cacheFirst_writes_any_status_witness :
    (handleFetchA (fun _ => some ⟨404, "not found"⟩) []
        ⟨"GET", "/missing.css", "", ""⟩).1 = some (some ⟨404, "not found"⟩)
    ∧ cachesMatch (handleFetchA (fun _ => some ⟨404, "not found"⟩) []
        ⟨"GET", "/missing.css", "", ""⟩).2 "/missing.css"
      = some ⟨404, "not found"⟩
    ∧ handleFetchA netDown
        (handleFetchA (fun _ => some ⟨404, "not found"⟩) []
          ⟨"GET", "/missing.css", "", ""⟩).2
        ⟨"GET", "/missing.css", "", ""⟩
      = (some (some ⟨404, "not found"⟩),
         (handleFetchA (fun _ => some ⟨404, "not found"⟩) []
           ⟨"GET", "/missing.css", "", ""⟩).2) :=
  ⟨(cacheFirst_writes_any_status (fun _ => some ⟨404, "not found"⟩) []
      ⟨"GET", "/missing.css", "", ""⟩ ⟨404, "not found"⟩ rfl (by decide)
      rfl rfl).1,
   (cacheFirst_writes_any_status (fun _ => some ⟨404, "not found"⟩) []
      ⟨"GET", "/missing.css", "", ""⟩ ⟨404, "not found"⟩ rfl (by decide)
      rfl rfl).2.1,
   (cacheFirst_writes_any_status (fun _ => some ⟨404, "not found"⟩) []
      ⟨"GET", "/missing.css", "", ""⟩ ⟨404, "not found"⟩ rfl (by decide)
      rfl rfl).2.2 netDown⟩

/-- C2: stale-while-revalidate on a GET request routed to it when the active
store already holds an entry: the entry is the returned response whatever
the network does (so the answer never waits on the fetch), and after the
request the active store's entry reflects the latest successful network
fetch — a resolved status-200 response replaces it, while a rejected fetch
or a non-200 response leaves the previous entry in place. -/
theorem swr_stale_entry (net : Network) (cs : CacheState) (req : Request)
    (r : Response) (hm : req.method = "GET") (hc : isCss req = false)
    (hmed : isMedia req = true)
    (hcached : cacheMatchIn cs CACHE_NAME req.path = some r) :
    (handleFetchA net cs req).1 = some (some r)
    ∧ (∀ nr, net req.path = some nr → nr.status = 200 →
        cacheMatchIn (handleFetchA net cs req).2 CACHE_NAME req.path
          = some nr)
    ∧ (net req.path = none →
        cacheMatchIn (handleFetchA net cs req).2 CACHE_NAME req.path
          = some r)
    ∧ (∀ nr, net req.path = some nr → nr.status ≠ 200 →
        cacheMatchIn (handleFetchA net cs req).2 CACHE_NAME req.path
          = some r) := by
  have hhas := cachesHas_of_matchIn hcached
  have hopen : cachesOpen cs CACHE_NAME = cs := by
    simp [cachesOpen, hhas]
  refine ⟨?_, ?_, ?_, ?_⟩
  · cases hn : net req.path with
    | none =>
      simp [handleFetchA, hm, hc, hmed, staleWhileRevalidate, hopen,
        hcached, hn]
    | some nr =>
      by_cases hs : nr.status == 200 <;>
        simp [handleFetchA, hm, hc, hmed, staleWhileRevalidate, hopen,
          hcached, hn, hs]
  · intro nr hn hs
    simp [handleFetchA, hm, hc, hmed, staleWhileRevalidate, hopen, hcached,
      hn, hs, cacheMatchIn_put_self _ _ hhas]
  · intro hn
    simp [handleFetchA, hm, hc, hmed, staleWhileRevalidate, hopen, hcached,
      hn]
  · intro nr hn hs
    simp [handleFetchA, hm, hc, hmed, staleWhileRevalidate, hopen, hcached,
      hn, hs]

/-- Witness for C2: the spec's scenario — `GET /assets/media/photo.webp`
with a stale entry and a reachable network returns the stale entry at once
and leaves the fresh network body in the store. -/
theorem swr_stale_entry_witness :
    (handleFetchA (fun _ => some ⟨200, "new"⟩)
        [(CACHE_NAME, [("/assets/media/photo.webp", ⟨200, "old"⟩)])]
        ⟨"GET", "/assets/media/photo.webp", "image", ""⟩).1
      = some (some ⟨200, "old"⟩)
    ∧ cacheMatchIn (handleFetchA (fun _ => some ⟨200, "new"⟩)
        [(CACHE_NAME, [("/assets/media/photo.webp", ⟨200, "old"⟩)])]
        ⟨"GET", "/assets/media/photo.webp", "image", ""⟩).2
        CACHE_NAME "/assets/media/photo.webp" = some ⟨200, "new"⟩ :=
  ⟨(swr_stale_entry (fun _ => some ⟨200, "new"⟩)
      [(CACHE_NAME, [("/assets/media/photo.webp", ⟨200, "old"⟩)])]
      ⟨"GET", "/assets/media/photo.webp", "image", ""⟩ ⟨200, "old"⟩ rfl
      (by decide) (by decide) (by decide)).1,
   (swr_stale_entry (fun _ => some ⟨200, "new"⟩)
      [(CACHE_NAME, [("/assets/media/photo.webp", ⟨200, "old"⟩)])]
      ⟨"GET", "/assets/media/photo.webp", "image", ""⟩ ⟨200, "old"⟩ rfl
      (by decide) (by decide) (by decide)).2.1 ⟨200, "new"⟩ rfl rfl⟩

/-- C6: when the network fetch rejects inside `staleWhileRevalidate`, the
failure is swallowed whenever the active store already satisfied the
request (the stored entry is returned and the state is untouched), and is
surfaced as the returned failure when no entry existed in the active
store. -/
theorem swr_error_surfacing (net : Network) (cs : CacheState) (u : String)
    (hfail : net u = none) :
    (∀ r, cacheMatchIn cs CACHE_NAME u = some r →
      staleWhileRevalidate net cs u = (some r, cs))
    ∧ (cacheMatchIn cs CACHE_NAME u = none →
      (staleWhileRevalidate net cs u).1 = none) := by
  constructor
  · intro r hr
    have hhas := cachesHas_of_matchIn hr
    have hopen : cachesOpen cs CACHE_NAME = cs := by
      simp [cachesOpen, hhas]
    simp [staleWhileRevalidate, hopen, hr, hfail]
  · intro hn
    have h2 : cacheMatchIn (cachesOpen cs CACHE_NAME) CACHE_NAME u = none :=
      (cacheMatchIn_open cs CACHE_NAME u).trans hn
    simp [staleWhileRevalidate, h2, hfail]

/-- Witness for C6: with the network down, a cached media entry is served
with the failure swallowed, and a missing entry surfaces the failure. -/
theorem swr_error_surfacing_witness :
    staleWhileRevalidate netDown
        [(CACHE_NAME, [("/assets/media/p.png", ⟨200, "pix"⟩)])]
        "/assets/media/p.png"
      = (some ⟨200, "pix"⟩,
         [(CACHE_NAME, [("/assets/media/p.png", ⟨200, "pix"⟩)])])
    ∧ (staleWhileRevalidate netDown [(CACHE_NAME, [])]
        "/assets/media/p.png").1 = none :=
  ⟨(swr_error_surfacing netDown
      [(CACHE_NAME, [("/assets/media/p.png", ⟨200, "pix"⟩)])]
      "/assets/media/p.png" rfl).1 ⟨200, "pix"⟩ (by decide),
   (swr_error_surfacing netDown [(CACHE_NAME, [])]
      "/assets/media/p.png" rfl).2 (by decide)⟩

/-- C7: a GET request routed to the default strategy in either variant: a
present cached entry is returned at once and — entry present or absent —
the cache storage is returned unchanged, so this strategy never writes; on
a cache miss the network's result, success or failure, is returned
directly. -/
theorem default_strategy_behavior (net : Network) (cs : CacheState)
    (req : Request) (hm : req.method = "GET") (hc : isCss req = false)
    (hmed : isMedia req = false) (hnav : req.mode ≠ "navigate") :
    (∀ r, cachesMatch cs req.path = some r →
      handleFetchA net cs req = (some (some r), cs)
      ∧ handleFetchB net cs req = (some (some r), cs))
    ∧ (cachesMatch cs req.path = none →
      handleFetchA net cs req = (some (net req.path), cs)
      ∧ handleFetchB net cs req = (some (net req.path), cs)) := by
  constructor
  · intro r hr
    constructor
    · simp [handleFetchA, hm, hc, hmed, defaultStrategy, hr]
    · simp [handleFetchB, hm, hnav, hmed, defaultStrategy, hr]
  · intro hn
    constructor
    · simp [handleFetchA, hm, hc, hmed, defaultStrategy, hn]
    · simp [handleFetchB, hm, hnav, hmed, defaultStrategy, hn]

/-- Witness for C7: the spec's scenario — `GET /other/page.json` with no
store entry and an unreachable network fails, propagating the network
failure, with no entry written. -/
theorem default_strategy_behavior_witness :
    handleFetchA netDown [] ⟨"GET", "/other/page.json", "", ""⟩
      = (some none, [])
    ∧ handleFetchB netDown [] ⟨"GET", "/other/page.json", "", ""⟩
      = (some none, []) :=
  (default_strategy_behavior netDown [] ⟨"GET", "/other/page.json", "", ""⟩
    rfl (by decide) (by decide) (by decide)).2 rfl

/-- C8: variant B serves every GET page navigation from the cached entry
point document `/index.html` — for any request URL and for every network
when a cached copy exists — and only when no cached entry for it exists
does it fall back to fetching `/index.html` from the network. -/
theorem navigation_app_shell (net : Network) (cs : CacheState)
    (req : Request) (hm : req.method = "GET") (hnav : req.mode = "navigate") :
    (∀ r, cachesMatch cs "/index.html" = some r →
      handleFetchB net cs req = (some (some r), cs))
    ∧ (cachesMatch cs "/index.html" = none →
      handleFetchB net cs req = (some (net "/index.html"), cs)) := by
  constructor
  · intro r hr
    simp [handleFetchB, hm, hnav, navigationStrategy, hr]
  · intro hn
    simp [handleFetchB, hm, hnav, navigationStrategy, hn]

/-- Witness for C8: a navigation to `/deep/page` is served the cached
`/index.html` with the network down; without the cached shell the fetch
of `/index.html` is attempted instead. -/
theorem navigation_app_shell_witness :
    handleFetchB netDown [(CACHE_NAME, [("/index.html", ⟨200, "shell"⟩)])]
        ⟨"GET", "/deep/page", "document", "navigate"⟩
      = (some (some ⟨200, "shell"⟩),
         [(CACHE_NAME, [("/index.html", ⟨200, "shell"⟩)])])
    ∧ handleFetchB (fun _ => some ⟨200, "net-shell"⟩) []
        ⟨"GET", "/deep/page", "document", "navigate"⟩
      = (some (some ⟨200, "net-shell"⟩), []) :=
  ⟨(navigation_app_shell netDown
      [(CACHE_NAME, [("/index.html", ⟨200, "shell"⟩)])]
      ⟨"GET", "/deep/page", "document", "navigate"⟩ rfl rfl).1
      ⟨200, "shell"⟩ (by decide),
   (navigation_app_shell (fun _ => some ⟨200, "net-shell"⟩) []
      ⟨"GET", "/deep/page", "document", "navigate"⟩ rfl rfl).2 rfl⟩

/-- C3: after the activate handler's deletion pass every surviving store is
named for the current Version Tag's store name; when the store names are
distinct (as the platform keeps them) and the active store exists — that
is, population ran — exactly that one store remains; and bumping the
Version Tag from v2 to v3 (install, then activate, under the v3-derived
name) leaves the `oha-v2` store no longer existing while the `oha-v3`
store exists. -/
theorem activate_version_cleanup :
    (∀ (name : String) (cs : CacheState),
      (∀ e ∈ activateEvent name cs, e.1 = name)
      ∧ ((cachesKeys cs).Nodup → ∀ s : Store, (name, s) ∈ cs →
          activateEvent name cs = [(name, s)]))
    ∧ (∀ (cs : CacheState) (net : Network) (s2 : Store),
        ("oha-v2", s2) ∈ cs →
        cachesHas (activateEvent (cacheNameOf "v3")
          (installEvent net (cacheNameOf "v3") CORE_ASSETS cs).2) "oha-v2"
          = false
        ∧ cachesHas (activateEvent (cacheNameOf "v3")
          (installEvent net (cacheNameOf "v3") CORE_ASSETS cs).2)
          (cacheNameOf "v3") = true) := by
  constructor
  · intro name cs
    constructor
    · intro e he
      rw [activateEvent_eq_filter] at he
      simpa using (List.mem_filter.mp he).2
    · intro hnd s hm
      rw [activateEvent_eq_filter]
      exact filter_name_eq_singleton hnd hm
  · intro cs net s2 _
    have hv3 : cachesHas
        (installEvent net (cacheNameOf "v3") CORE_ASSETS cs).2
        (cacheNameOf "v3") = true :=
      cachesHas_installEvent net (cacheNameOf "v3") CORE_ASSETS cs
    constructor
    · rw [activateEvent_eq_filter, cachesHas_filter_eq]
      have hne : ("oha-v2" == cacheNameOf "v3") = false := by decide
      simp [hne]
    · rw [activateEvent_eq_filter, cachesHas_filter_eq]
      simp [hv3]

/-- Witness for C3: activating under the v2 name removes the v1 store and
keeps exactly the v2 store; bumping to v3 over a v2-only storage removes
`oha-v2` and leaves `oha-v3` existing. -/
theorem activate_version_cleanup_witness :
    activateEvent "oha-v2" [("oha-v1", []), ("oha-v2", [])]
      = [("oha-v2", [])]
    ∧ cachesHas (activateEvent (cacheNameOf "v3")
        (installEvent (fun _ => some ⟨200, "x"⟩) (cacheNameOf "v3")
          CORE_ASSETS [("oha-v2", [])]).2) "oha-v2" = false
    ∧ cachesHas (activateEvent (cacheNameOf "v3")
        (installEvent (fun _ => some ⟨200, "x"⟩) (cacheNameOf "v3")
          CORE_ASSETS [("oha-v2", [])]).2) (cacheNameOf "v3") = true :=
  ⟨(activate_version_cleanup.1 "oha-v2" [("oha-v1", []), ("oha-v2", [])]).2
      (by decide) [] (by decide),
   (activate_version_cleanup.2 [("oha-v2", [])] (fun _ => some ⟨200, "x"⟩)
      [] (by decide)).1,
   (activate_version_cleanup.2 [("oha-v2", [])] (fun _ => some ⟨200, "x"⟩)
      [] (by decide)).2⟩

/-- C5 counterexample: with every manifest fetch rejecting, installing into
the empty cache storage fails — as the claim says — but the storage is not
unchanged on error: the open step has already created the (empty) active
store. -/
theorem install_state_change_cex :
    (installEvent netDown CACHE_NAME CORE_ASSETS []).1 = false
    ∧ (installEvent netDown CACHE_NAME CORE_ASSETS []).2
        = [(CACHE_NAME, [])]
    ∧ [(CACHE_NAME, ([] : Store))] ≠ ([] : CacheState) := by
  decide

/-- C5 amended: if fetching any URL of the manifest fails at install time,
the entire population fails — the install step reports failure and not one
manifest entry is committed to any store: the resulting storage is exactly
the prior storage with at most the empty active store created by the open
step. -/
theorem install_fail_atomic (net : Network) (name : String)
    (assets : List String) (cs : CacheState) (u : String)
    (hu : u ∈ assets) (hf : net u = none) :
    installEvent net name assets cs = (false, cachesOpen cs name) := by
  simp [installEvent, addAll, fetchAll_eq_none hf hu]

/-- Witness for C5 (amended): all fetches rejecting, install over an
unrelated pre-existing store fails and leaves its entries intact. -/
theorem install_fail_atomic_witness :
    installEvent netDown CACHE_NAME CORE_ASSETS
        [("old", [("/x", ⟨200, "y"⟩)])]
      = (false, cachesOpen [("old", [("/x", ⟨200, "y"⟩)])] CACHE_NAME) :=
  install_fail_atomic netDown CACHE_NAME CORE_ASSETS
    [("old", [("/x", ⟨200, "y"⟩)])] "/" (by decide) rfl

/-- C9 counterexample: with a stale `oha-old` store still present beside
the empty active store, variant A's cache-first branch answers
`GET /a.css` with the entry of the non-active store — the active store has
no entry for it and the network is down — so strategy reads are not
confined to the currently-active store. -/
theorem executor_reads_other_store_cex :
    (handleFetchA netDown
        [("oha-old", [("/a.css", ⟨200, "old-css"⟩)]), (CACHE_NAME, [])]
        ⟨"GET", "/a.css", "style", ""⟩).1
      = some (some ⟨200, "old-css"⟩)
    ∧ cacheMatchIn
        [("oha-old", [("/a.css", ⟨200, "old-css"⟩)]), (CACHE_NAME, [])]
        CACHE_NAME "/a.css" = none
    ∧ ("oha-old" : String) ≠ CACHE_NAME := by
  decide

/-- C9 amended: the strategy executors of both variants never create,
destroy, or write to any store other than the currently-active one — the
storage restricted to the other names is unchanged by every intercepted
request — but their entry reads in the cache-first and default strategies
go through the global lookup across all existing stores, so reads are not
confined to the active store. -/
theorem executor_write_scoping (net : Network) (cs : CacheState)
    (req : Request) :
    (handleFetchA net cs req).2.filter (fun e => !(e.1 == CACHE_NAME))
      = cs.filter (fun e => !(e.1 == CACHE_NAME))
    ∧ (handleFetchB net cs req).2.filter (fun e => !(e.1 == CACHE_NAME))
      = cs.filter (fun e => !(e.1 == CACHE_NAME)) := by
  constructor
  · by_cases h1 : (req.method != "GET") = true
    · simp [handleFetchA, h1]
    · by_cases h2 : isCss req = true
      · simp [handleFetchA, h1, h2, filter_cacheFirst]
      · by_cases h3 : isMedia req = true
        · simp [handleFetchA, h1, h2, h3, filter_staleWhileRevalidate]
        · simp [handleFetchA, h1, h2, h3, snd_defaultStrategy]
  · by_cases h1 : (req.method != "GET") = true
    · simp [handleFetchB, h1]
    · by_cases h2 : (req.mode == "navigate") = true
      · simp [handleFetchB, h1, h2, snd_navigationStrategy]
      · by_cases h3 : isMedia req = true
        · simp [handleFetchB, h1, h2, h3, filter_staleWhileRevalidate]
        · simp [handleFetchB, h1, h2, h3, snd_defaultStrategy]
